import Mathlib

/-!
# Verification of the metric pivot and aggregation layer

Shallow embedding, in Lean, of the calibration helpers of the
traffic-microsimulation repository:

* `src/calibration/postprocessing_plot_util.py`:
  `__revert_dict_of_dict` (the time/entity transposition),
  `convert_flow_per_time_to_list` (pairing real with simulated flow,
  optionally partitioned by the `city_common_id` substring test), and
  `get_linear_regression` (the wrapper around the least-squares fit).
* `src/calibration/calibration_util.py`:
  `ExternalDemandProfile.export_to_file` and
  `ExternalDemandProfile.__import_from_file` (pickle round trip of the
  external demand matrix).

Python dictionaries are embedded as insertion-ordered association lists
with distinct keys; `float` values are embedded as `ℚ`; `datetime.time`
keys are embedded as minutes after midnight (`ℕ`) in concrete instances,
the generic theorems keep key types abstract.  Python exceptions become
an explicit `Except` error channel.
-/

/-- The (built-in) Python exceptions the pivot helpers can raise:
`IndexError` from `list(d.values())[0]` on an empty dictionary,
`KeyError` from `d[x][y]` / `simulated_flow_dict[id]` on a missing key,
and `AssertionError` from the defensive `assert len(..) == len(..)`. -/
inductive PyError where
  | indexError
  | keyError
  | assertionError
  deriving DecidableEq, Repr

instance {e a : Type} [DecidableEq e] [DecidableEq a] : DecidableEq (Except e a)
  | .error x, .error y =>
    if h : x = y then .isTrue (by rw [h]) else .isFalse (by intro hh; cases hh; exact h rfl)
  | .error x, .ok y => .isFalse (by intro hh; cases hh)
  | .ok x, .error y => .isFalse (by intro hh; cases hh)
  | .ok x, .ok y =>
    if h : x = y then .isTrue (by rw [h]) else .isFalse (by intro hh; cases hh; exact h rfl)

/-- A Python `dict` as an insertion-ordered association list.  Every
dictionary the code builds has pairwise-distinct keys; where a proof
needs that fact it is an explicit hypothesis. -/
abbrev Dict (κ V : Type) := List (κ × V)

/-- A dict of dicts (the spec's Time-Keyed Table / Entity-Keyed Table). -/
abbrev DoD (τ ε V : Type) := List (τ × Dict ε V)

/-- `d[k]` as a total function: `some v` when `k` is bound, else `none`
(a `none` models Python raising `KeyError` at the access). -/
def dictGet {κ V : Type} [DecidableEq κ] (k : κ) : Dict κ V → Option V
  | [] => none
  | p :: rest => if k = p.1 then some p.2 else dictGet k rest

/-- `list(d.keys())`, in insertion order. -/
def dictKeys {κ V : Type} (d : Dict κ V) : List κ := d.map Prod.fst

/-- `d[k1][k2]` as a total function into `Option`. -/
def tableGet {κ₁ κ₂ V : Type} [DecidableEq κ₁] [DecidableEq κ₂]
    (d : List (κ₁ × Dict κ₂ V)) (k₁ : κ₁) (k₂ : κ₂) : Option V :=
  (dictGet k₁ d).bind (dictGet k₂)

/-- The entity identifiers under the first time key:
`list(dict_to_return.values())[0]` iterated as a dictionary gives its keys.
Empty when the table itself is empty. -/
def entityKeys {τ ε V : Type} : DoD τ ε V → List ε
  | [] => []
  | (_, first) :: _ => dictKeys first

/-- The inner comprehension `{x: dict_to_return[x][y] for x in dict_to_return}`
of `__revert_dict_of_dict`, for one entity `e`: walk the time keys in order
and read `d[x][e]`; a missing entity raises `KeyError`. -/
def buildColumn {τ ε V : Type} [DecidableEq ε] : DoD τ ε V → ε → Except PyError (Dict τ V)
  | [], _ => .ok []
  | (t, inner) :: rest, e =>
    match dictGet e inner with
    | none => .error .keyError
    | some v =>
      match buildColumn rest e with
      | .error err => .error err
      | .ok col => .ok ((t, v) :: col)

/-- The outer comprehension of `__revert_dict_of_dict`: one column per
entity of the given list, in order. -/
def buildColumns {τ ε V : Type} [DecidableEq ε] (d : DoD τ ε V) :
    List ε → Except PyError (DoD ε τ V)
  | [] => .ok []
  | e :: es =>
    match buildColumn d e with
    | .error err => .error err
    | .ok col =>
      match buildColumns d es with
      | .error err => .error err
      | .ok cols => .ok ((e, col) :: cols)

/-- `__revert_dict_of_dict(dict_to_return)` of
`src/calibration/postprocessing_plot_util.py`:

    return {y: {x: dict_to_return[x][y] for x in dict_to_return}
            for y in list(dict_to_return.values())[0]}

On an empty dictionary, `list(dict_to_return.values())[0]` raises
`IndexError`; a `y` missing under some time key `x` raises `KeyError`
at `dict_to_return[x][y]`. -/
def revert_dict_of_dict {τ ε V : Type} [DecidableEq ε] (d : DoD τ ε V) :
    Except PyError (DoD ε τ V) :=
  match d with
  | [] => .error .indexError
  | (t, first) :: rest => buildColumns ((t, first) :: rest) (dictKeys first)

/-- The spec's well-formed Time-Keyed Table: non-empty, distinct time keys,
and under every time key a dictionary with distinct keys and the same set
of entity identifiers as under the first time key. -/
def wellFormed {τ ε V : Type} [DecidableEq τ] [DecidableEq ε] (d : DoD τ ε V) : Prop :=
  d ≠ [] ∧ (dictKeys d).Nodup ∧
    ∀ p ∈ d, (dictKeys p.2).Nodup ∧
      (∀ e ∈ dictKeys p.2, e ∈ entityKeys d) ∧
      (∀ e ∈ entityKeys d, e ∈ dictKeys p.2)

instance {τ ε V : Type} [DecidableEq τ] [DecidableEq ε] [DecidableEq V]
    (d : DoD τ ε V) : Decidable (wellFormed d) := by
  unfold wellFormed
  infer_instance

/-- Equality of dicts of dicts as Python's `==` sees it (key sets and the
values under each key pair, insertion order ignored). -/
def pyDictOfDictEq {τ ε V : Type} [DecidableEq τ] [DecidableEq ε]
    (d₁ d₂ : DoD τ ε V) : Prop :=
  (∀ t, t ∈ dictKeys d₁ ↔ t ∈ dictKeys d₂) ∧
    ∀ t e, tableGet d₁ t e = tableGet d₂ t e

/-! ## Association-list lemmas -/

theorem dictGet_isSome_iff {κ V : Type} [DecidableEq κ] (k : κ) (d : Dict κ V) :
    (∃ v, dictGet k d = some v) ↔ k ∈ dictKeys d := by
  induction d with
  | nil => simp [dictGet, dictKeys]
  | cons p rest ih =>
    by_cases h : k = p.1
    · simp [dictGet, dictKeys, h]
    · simp [dictGet, dictKeys, h, ih]

theorem dictGet_eq_none {κ V : Type} [DecidableEq κ] {k : κ} {d : Dict κ V}
    (h : k ∉ dictKeys d) : dictGet k d = none := by
  induction d with
  | nil => rfl
  | cons p rest ih =>
    simp only [dictKeys, List.map_cons, List.mem_cons] at h
    push_neg at h
    simp only [dictGet, if_neg h.1]
    exact ih h.2

theorem dictGet_mem {κ V : Type} [DecidableEq κ] {k : κ} {v : V} {d : Dict κ V}
    (h : dictGet k d = some v) : (k, v) ∈ d := by
  induction d with
  | nil => simp [dictGet] at h
  | cons p rest ih =>
    by_cases hk : k = p.1
    · simp only [dictGet, if_pos hk] at h
      cases h
      subst hk
      exact List.mem_cons_self _ _
    · simp only [dictGet, if_neg hk] at h
      exact List.mem_cons_of_mem _ (ih h)

theorem mem_dictGet {κ V : Type} [DecidableEq κ] {k : κ} {v : V} {d : Dict κ V}
    (hnd : (dictKeys d).Nodup) (h : (k, v) ∈ d) : dictGet k d = some v := by
  induction d with
  | nil => simp at h
  | cons p rest ih =>
    simp only [dictKeys, List.map_cons, List.nodup_cons] at hnd
    rcases List.mem_cons.mp h with h0 | h1
    · rw [← h0]
      simp [dictGet]
    · have hk : k ≠ p.1 := by
        intro hk
        exact hnd.1 (hk ▸ (List.mem_map.mpr ⟨(k, v), h1, rfl⟩))
      simp only [dictGet, if_neg hk]
      exact ih hnd.2 h1

theorem dictGet_mem_keys {κ V : Type} [DecidableEq κ] {k : κ} {d : Dict κ V}
    (h : k ∈ dictKeys d) : ∃ v, dictGet k d = some v :=
  (dictGet_isSome_iff k d).mpr h

/-! ## Behaviour of the transposition -/

theorem buildColumn_ok {τ ε V : Type} [DecidableEq τ] [DecidableEq ε]
    {d : DoD τ ε V} {e : ε} (h : ∀ p ∈ d, e ∈ dictKeys p.2) :
    ∃ col, buildColumn d e = .ok col ∧ dictKeys col = dictKeys d ∧
      ∀ t, dictGet t col = (dictGet t d).bind (dictGet e) := by
  induction d with
  | nil => exact ⟨[], rfl, rfl, fun t => rfl⟩
  | cons p rest ih =>
    obtain ⟨v, hv⟩ := dictGet_mem_keys (h p (List.mem_cons_self p rest))
    obtain ⟨col, hcol, hkeys, hget⟩ := ih fun q hq => h q (List.mem_cons_of_mem _ hq)
    refine ⟨(p.1, v) :: col, ?_, ?_, ?_⟩
    · show buildColumn (p :: rest) e = _
      rw [show p = (p.1, p.2) from rfl]
      simp only [buildColumn, hv, hcol]
    · simp only [dictKeys, List.map_cons]
      exact congrArg (List.cons p.1) hkeys
    · intro t
      by_cases ht : t = p.1
      · simp [dictGet, ht, hv]
      · simp [dictGet, ht, hget t]

theorem buildColumn_error_eq {τ ε V : Type} [DecidableEq ε]
    {d : DoD τ ε V} {e : ε} {err : PyError}
    (h : buildColumn d e = .error err) : err = .keyError := by
  induction d with
  | nil => simp [buildColumn] at h
  | cons p rest ih =>
    rw [show p = (p.1, p.2) from rfl] at h
    simp only [buildColumn] at h
    cases hv : dictGet e p.2 with
    | none => rw [hv] at h; cases h; rfl
    | some v =>
      rw [hv] at h
      cases hc : buildColumn rest e with
      | error err2 => rw [hc] at h; cases h; exact ih hc
      | ok col => rw [hc] at h; cases h

theorem buildColumn_error_of_missing {τ ε V : Type} [DecidableEq ε]
    {d : DoD τ ε V} {e : ε} (h : ∃ p ∈ d, e ∉ dictKeys p.2) :
    buildColumn d e = .error .keyError := by
  induction d with
  | nil => simp at h
  | cons p rest ih =>
    rw [show p = (p.1, p.2) from rfl]
    simp only [buildColumn]
    cases hv : dictGet e p.2 with
    | none => rfl
    | some v =>
      obtain ⟨q, hq, hqe⟩ := h
      rcases List.mem_cons.mp hq with h0 | h1
      · exfalso
        apply hqe
        rw [h0]
        exact List.mem_map.mpr ⟨(e, v), dictGet_mem hv, rfl⟩
      · rw [ih ⟨q, h1, hqe⟩]

theorem buildColumns_ok {τ ε V : Type} [DecidableEq τ] [DecidableEq ε]
    {d : DoD τ ε V} {es : List ε} (h : ∀ e ∈ es, ∀ p ∈ d, e ∈ dictKeys p.2) :
    ∃ E, buildColumns d es = .ok E ∧ dictKeys E = es ∧
      ∀ e col, (e, col) ∈ E → buildColumn d e = .ok col := by
  induction es with
  | nil => exact ⟨[], rfl, rfl, by simp⟩
  | cons e es ih =>
    obtain ⟨col, hcol, _, _⟩ :=
      buildColumn_ok (h e (List.mem_cons_self e es))
    obtain ⟨E, hE, hkeys, hmem⟩ := ih fun x hx => h x (List.mem_cons_of_mem _ hx)
    refine ⟨(e, col) :: E, ?_, ?_, ?_⟩
    · simp only [buildColumns, hcol, hE]
    · simp only [dictKeys, List.map_cons]
      exact congrArg (List.cons e) hkeys
    · intro x c hx
      rcases List.mem_cons.mp hx with h0 | h1
      · cases h0; exact hcol
      · exact hmem x c h1

theorem buildColumns_error_of_mem {τ ε V : Type} [DecidableEq ε]
    {d : DoD τ ε V} {es : List ε} {e : ε} (he : e ∈ es)
    (hcol : buildColumn d e = .error .keyError) :
    buildColumns d es = .error .keyError := by
  induction es with
  | nil => simp at he
  | cons x es ih =>
    simp only [buildColumns]
    cases hx : buildColumn d x with
    | error err => rw [buildColumn_error_eq hx]
    | ok col =>
      rcases List.mem_cons.mp he with h0 | h1
      · rw [h0] at hcol
        rw [hcol] at hx
        cases hx
      · rw [ih h1]

theorem revert_ok {τ ε V : Type} [DecidableEq τ] [DecidableEq ε]
    {d : DoD τ ε V} (hwf : wellFormed d) :
    ∃ E, revert_dict_of_dict d = .ok E ∧ dictKeys E = entityKeys d ∧
      (∀ p ∈ E, dictKeys p.2 = dictKeys d) ∧
      (∀ e t, tableGet E e t = tableGet d t e) := by
  obtain ⟨hne, hnd, hall⟩ := hwf
  cases d with
  | nil => exact absurd rfl hne
  | cons p rest =>
    obtain ⟨t0, first⟩ := p
    have hcond : ∀ e ∈ dictKeys first, ∀ q ∈ (t0, first) :: rest, e ∈ dictKeys q.2 :=
      fun e he q hq => (hall q hq).2.2 e he
    obtain ⟨E, hE, hkeysE, hmem⟩ := buildColumns_ok hcond
    have hcol_of_mem : ∀ q ∈ E, buildColumn ((t0, first) :: rest) q.1 = .ok q.2 ∧
        dictKeys q.2 = dictKeys ((t0, first) :: rest) ∧
        ∀ t, dictGet t q.2 = (dictGet t ((t0, first) :: rest)).bind (dictGet q.1) := by
      intro q hq
      have he : q.1 ∈ dictKeys first := by
        rw [← hkeysE]
        exact List.mem_map.mpr ⟨q, hq, rfl⟩
      obtain ⟨col', hcol', hkeys', hget'⟩ := buildColumn_ok (hcond q.1 he)
      have hq2 : buildColumn ((t0, first) :: rest) q.1 = .ok q.2 :=
        hmem q.1 q.2 (by rw [show (q.1, q.2) = q from rfl]; exact hq)
      rw [hq2] at hcol'
      cases hcol'
      exact ⟨hq2, hkeys', hget'⟩
    refine ⟨E, hE, hkeysE, fun q hq => (hcol_of_mem q hq).2.1, ?_⟩
    intro e t
    by_cases he : e ∈ dictKeys first
    · have hndE : (dictKeys E).Nodup := by
        rw [hkeysE]
        exact (hall (t0, first) (List.mem_cons_self _ _)).1
      obtain ⟨col, hcolE⟩ := dictGet_mem_keys (by rw [hkeysE]; exact he)
      have hmemE : (e, col) ∈ E := dictGet_mem hcolE
      have := (hcol_of_mem (e, col) hmemE).2.2
      show (dictGet e E).bind (dictGet t) = tableGet ((t0, first) :: rest) t e
      rw [hcolE]
      exact this t
    · have hnone : dictGet e E = none := dictGet_eq_none (by rw [hkeysE]; exact he)
      show (dictGet e E).bind (dictGet t) = (dictGet t ((t0, first) :: rest)).bind (dictGet e)
      rw [hnone]
      cases ht : dictGet t ((t0, first) :: rest) with
      | none => rfl
      | some inner =>
        have hmemd := dictGet_mem ht
        have : e ∉ dictKeys inner := fun hc => he ((hall (t, inner) hmemd).2.1 e hc)
        simp [dictGet_eq_none this]

theorem revert_ok_wellFormed {τ ε V : Type} [DecidableEq τ] [DecidableEq ε]
    {d : DoD τ ε V} (hwf : wellFormed d) (hne : entityKeys d ≠ [])
    {E : DoD ε τ V} (hE : revert_dict_of_dict d = .ok E) : wellFormed E := by
  obtain ⟨E', hE', hkeys, hcols, _⟩ := revert_ok hwf
  rw [hE] at hE'
  cases hE'
  have hEne : E ≠ [] := by
    intro hc
    rw [hc] at hkeys
    exact hne hkeys.symm
  refine ⟨hEne, ?_, ?_⟩
  · rw [hkeys]
    obtain ⟨hdne, _, hall⟩ := hwf
    cases d with
    | nil => exact absurd rfl hdne
    | cons p rest =>
      obtain ⟨t0, first⟩ := p
      exact (hall (t0, first) (List.mem_cons_self _ _)).1
  · intro q hq
    have hentE : entityKeys E = dictKeys d := by
      cases E with
      | nil => exact absurd rfl hEne
      | cons q0 E' =>
        obtain ⟨e0, col0⟩ := q0
        exact hcols (e0, col0) (List.mem_cons_self _ _)
    refine ⟨?_, ?_, ?_⟩
    · rw [hcols q hq]
      exact hwf.2.1
    · intro x hx
      rw [hentE]
      rw [hcols q hq] at hx
      exact hx
    · intro x hx
      rw [hcols q hq]
      rw [hentE] at hx
      exact hx

/-- C1 (amended): for a well-formed Time-Keyed Table whose entity set
(the keys under the first time key) is non-empty, `__revert_dict_of_dict`
succeeds, satisfies `transpose(T)[e][t] == T[t][e]` at every pair of keys,
keeps exactly one entry per (entity, time) pair of the source (no drop,
no duplication), and transposing twice yields a table equal to `T` under
Python dictionary equality. -/
theorem revert_dict_of_dict_roundtrip {τ ε V : Type} [DecidableEq τ] [DecidableEq ε]
    (d : DoD τ ε V) (hwf : wellFormed d) (hne : entityKeys d ≠ []) :
    ∃ E, revert_dict_of_dict d = .ok E ∧
      (∀ e t, tableGet E e t = tableGet d t e) ∧
      dictKeys E = entityKeys d ∧ (dictKeys E).Nodup ∧
      (∀ p ∈ E, dictKeys p.2 = dictKeys d ∧ (dictKeys p.2).Nodup) ∧
      ∃ d₂, revert_dict_of_dict E = .ok d₂ ∧ pyDictOfDictEq d₂ d := by
  obtain ⟨E, hE, hkeys, hcols, hpt⟩ := revert_ok hwf
  have hwfE := revert_ok_wellFormed hwf hne hE
  obtain ⟨d₂, hd₂, hkeys₂, hcols₂, hpt₂⟩ := revert_ok hwfE
  have hentE : entityKeys E = dictKeys d := by
    cases E with
    | nil =>
      exfalso
      apply hne
      rw [← hkeys]
      rfl
    | cons q0 E' =>
      obtain ⟨e0, col0⟩ := q0
      exact hcols (e0, col0) (List.mem_cons_self _ _)
  refine ⟨E, hE, hpt, hkeys, hwfE.2.1, ?_, d₂, hd₂, ?_, ?_⟩
  · intro p hp
    exact ⟨hcols p hp, (hwfE.2.2 p hp).1⟩
  · intro t
    rw [hkeys₂, hentE]
  · intro t e
    rw [hpt₂ t e, hpt e t]

/-- C1 (counterexample to the unamended claim): the one-time-key table
`{t0: {}}` is well-formed in the claim's sense (non-empty, uniform entity
sets), yet transposing it yields the empty dictionary, and transposing
that raises `IndexError` — the double transposition does not return the
original table. -/
theorem revert_dict_of_dict_roundtrip_cex :
    wellFormed [((0 : ℕ), ([] : Dict ℕ ℚ))] ∧
    revert_dict_of_dict [((0 : ℕ), ([] : Dict ℕ ℚ))] = .ok [] ∧
    revert_dict_of_dict ([] : DoD ℕ ℕ ℚ) = .error .indexError :=
  ⟨by decide, rfl, rfl⟩

/-- C1 (witness): the round-trip theorem applied to the concrete
well-formed table `{09:00: {d1: 10, d2: 20}, 09:15: {d1: 12, d2: 18}}`
(times as minutes after midnight, detectors as 1 and 2). -/
theorem revert_dict_of_dict_roundtrip_witness :
    wellFormed [((540 : ℕ), [((1 : ℕ), (10 : ℚ)), (2, 20)]), (555, [(1, 12), (2, 18)])] ∧
    entityKeys [((540 : ℕ), [((1 : ℕ), (10 : ℚ)), (2, 20)]), (555, [(1, 12), (2, 18)])] ≠ [] ∧
    ∃ E, revert_dict_of_dict
        [((540 : ℕ), [((1 : ℕ), (10 : ℚ)), (2, 20)]), (555, [(1, 12), (2, 18)])] = .ok E ∧
      (∀ e t, tableGet E e t =
        tableGet [((540 : ℕ), [((1 : ℕ), (10 : ℚ)), (2, 20)]), (555, [(1, 12), (2, 18)])] t e) ∧
      dictKeys E = entityKeys
        [((540 : ℕ), [((1 : ℕ), (10 : ℚ)), (2, 20)]), (555, [(1, 12), (2, 18)])] ∧
      (dictKeys E).Nodup ∧
      (∀ p ∈ E, dictKeys p.2 =
        dictKeys [((540 : ℕ), [((1 : ℕ), (10 : ℚ)), (2, 20)]), (555, [(1, 12), (2, 18)])] ∧
        (dictKeys p.2).Nodup) ∧
      ∃ d₂, revert_dict_of_dict E = .ok d₂ ∧ pyDictOfDictEq d₂
        [((540 : ℕ), [((1 : ℕ), (10 : ℚ)), (2, 20)]), (555, [(1, 12), (2, 18)])] :=
  ⟨by decide, by decide,
    revert_dict_of_dict_roundtrip _ (by decide) (by decide)⟩

/-- C4 (amended): when some later time key is missing an entity present
under the first time key, `__revert_dict_of_dict` raises `KeyError` at
`dict_to_return[x][y]` — it does not silently omit the sample. -/
theorem revert_missing_entity_keyError {τ ε V : Type} [DecidableEq ε]
    (t0 : τ) (first : Dict ε V) (rest : DoD τ ε V)
    (h : ∃ p ∈ rest, ∃ e ∈ dictKeys first, e ∉ dictKeys p.2) :
    revert_dict_of_dict ((t0, first) :: rest) = .error .keyError := by
  obtain ⟨p, hp, e, he, hmiss⟩ := h
  have hcol : buildColumn ((t0, first) :: rest) e = .error .keyError :=
    buildColumn_error_of_missing ⟨p, List.mem_cons_of_mem _ hp, hmiss⟩
  show buildColumns ((t0, first) :: rest) (dictKeys first) = .error .keyError
  exact buildColumns_error_of_mem he hcol

/-- C4 (witness): the amended theorem at the table `{t0: {e1: 5}, t2: {}}`,
whose second time key is missing entity 1. -/
theorem revert_missing_entity_keyError_witness :
    (∃ p ∈ [((2 : ℕ), ([] : Dict ℕ ℚ))],
      ∃ e ∈ dictKeys [((1 : ℕ), (5 : ℚ))], e ∉ dictKeys p.2) ∧
    revert_dict_of_dict [((0 : ℕ), [((1 : ℕ), (5 : ℚ))]), (2, [])] = .error .keyError :=
  ⟨by decide, revert_missing_entity_keyError 0 [(1, 5)] [(2, [])] (by decide)⟩

/-- C4 (counterexample to the claim as stated): on `{0: {1: 5}, 2: {}}`
the transposition raises `KeyError`; it does not return the result
`{1: {0: 5}}` that silent omission would produce. -/
theorem revert_missing_entity_cex :
    revert_dict_of_dict [((0 : ℕ), [((1 : ℕ), (5 : ℚ))]), (2, [])] = .error .keyError ∧
    revert_dict_of_dict [((0 : ℕ), [((1 : ℕ), (5 : ℚ))]), (2, [])] ≠ .ok [(1, [(0, 5)])] :=
  ⟨rfl, by decide⟩

/-- C7: applied to an empty Time-Keyed Table, `__revert_dict_of_dict`
fails: `list(dict_to_return.values())[0]` raises `IndexError` (the
concrete realization of the spec's `EmptyInputError`). -/
theorem revert_dict_of_dict_empty (τ ε V : Type) [DecidableEq ε] :
    revert_dict_of_dict ([] : DoD τ ε V) = .error .indexError := rfl

/-! ## `convert_flow_per_time_to_list` -/

/-- The inner loop of `convert_flow_per_time_to_list` for one time key,
without a classifier: iterate `real_flow_dict.items()` in order, appending
the real value and `simulated_flow_dict[detector_external_id]` (a missing
detector raises `KeyError`). -/
def collectPairs {ε : Type} [DecidableEq ε] (simD : Dict ε ℚ) :
    Dict ε ℚ → Except PyError (List ℚ × List ℚ)
  | [] => .ok ([], [])
  | (e, rv) :: rest =>
    match dictGet e simD with
    | none => .error .keyError
    | some sv =>
      match collectPairs simD rest with
      | .error err => .error err
      | .ok (rs, ss) => .ok (rv :: rs, sv :: ss)

/-- The outer loop of `convert_flow_per_time_to_list` without a
classifier: for each time of `time_list`, `real_flow_per_time[time]` and
`simulated_flow_per_time[time]` (missing time raises `KeyError`), then the
inner loop; the per-time pairs accumulate in time-major order. -/
def collectFlowLists {τ ε : Type} [DecidableEq τ] [DecidableEq ε]
    (real sim : DoD τ ε ℚ) : List τ → Except PyError (List ℚ × List ℚ)
  | [] => .ok ([], [])
  | t :: ts =>
    match dictGet t real with
    | none => .error .keyError
    | some realD =>
      match dictGet t sim with
      | none => .error .keyError
      | some simD =>
        match collectPairs simD realD with
        | .error err => .error err
        | .ok (rs, ss) =>
          match collectFlowLists real sim ts with
          | .error err => .error err
          | .ok (rs2, ss2) => .ok (rs ++ rs2, ss ++ ss2)

/-- `convert_flow_per_time_to_list` of
`src/calibration/postprocessing_plot_util.py`, branch `city_common_id is
None`: the accumulation loops followed by the defensive
`assert len(all_real_flow_list) == len(all_simulated_flow_list)` (the
numpy `reshape(-1, 1)` is shape bookkeeping and is left out). -/
def convert_flow_per_time_to_list {τ ε : Type} [DecidableEq τ] [DecidableEq ε]
    (real sim : DoD τ ε ℚ) (time_list : List τ) : Except PyError (List ℚ × List ℚ) :=
  match collectFlowLists real sim time_list with
  | .error err => .error err
  | .ok (rs, ss) =>
    if rs.length = ss.length then .ok (rs, ss) else .error .assertionError

/-- The inner loop of `convert_flow_per_time_to_list` with a classifier:
`cls e` embeds the test `city_common_id in detector_external_id`; the
matching entities accumulate into the city pair, the others into the PeMS
pair. -/
def collectPairsClassified {ε : Type} [DecidableEq ε] (cls : ε → Bool) (simD : Dict ε ℚ) :
    Dict ε ℚ → Except PyError ((List ℚ × List ℚ) × (List ℚ × List ℚ))
  | [] => .ok (([], []), ([], []))
  | (e, rv) :: rest =>
    match dictGet e simD with
    | none => .error .keyError
    | some sv =>
      match collectPairsClassified cls simD rest with
      | .error err => .error err
      | .ok ((crs, css), (prs, pss)) =>
        if cls e then .ok ((rv :: crs, sv :: css), (prs, pss))
        else .ok ((crs, css), (rv :: prs, sv :: pss))

/-- The outer loop of `convert_flow_per_time_to_list` with a classifier. -/
def collectFlowListsClassified {τ ε : Type} [DecidableEq τ] [DecidableEq ε]
    (cls : ε → Bool) (real sim : DoD τ ε ℚ) :
    List τ → Except PyError ((List ℚ × List ℚ) × (List ℚ × List ℚ))
  | [] => .ok (([], []), ([], []))
  | t :: ts =>
    match dictGet t real with
    | none => .error .keyError
    | some realD =>
      match dictGet t sim with
      | none => .error .keyError
      | some simD =>
        match collectPairsClassified cls simD realD with
        | .error err => .error err
        | .ok ((crs, css), (prs, pss)) =>
          match collectFlowListsClassified cls real sim ts with
          | .error err => .error err
          | .ok ((crs2, css2), (prs2, pss2)) =>
            .ok ((crs ++ crs2, css ++ css2), (prs ++ prs2, pss ++ pss2))

/-- `convert_flow_per_time_to_list`, branch `city_common_id` supplied: the
partitioned accumulation followed by the two defensive length asserts. -/
def convert_flow_per_time_to_list_classified {τ ε : Type} [DecidableEq τ] [DecidableEq ε]
    (cls : ε → Bool) (real sim : DoD τ ε ℚ) (time_list : List τ) :
    Except PyError ((List ℚ × List ℚ) × (List ℚ × List ℚ)) :=
  match collectFlowListsClassified cls real sim time_list with
  | .error err => .error err
  | .ok ((crs, css), (prs, pss)) =>
    if crs.length = css.length then
      if prs.length = pss.length then .ok ((crs, css), (prs, pss))
      else .error .assertionError
    else .error .assertionError

/-- The real-value sequence the claim describes: times in `time_list`
order, and within each time the entities of `real_table[time]` in their
insertion order. -/
def specRealList {τ ε : Type} [DecidableEq τ] (real : DoD τ ε ℚ) (ts : List τ) : List ℚ :=
  ts.flatMap fun t => ((dictGet t real).getD []).map Prod.snd

/-- The simulated-value sequence the claim describes: for each time and
each entity of `real_table[time]`, the value `simulated_table[time][entity]`. -/
def specSimList {τ ε : Type} [DecidableEq τ] [DecidableEq ε]
    (real sim : DoD τ ε ℚ) (ts : List τ) : List ℚ :=
  ts.flatMap fun t =>
    ((dictGet t real).getD []).map fun p => (dictGet p.1 ((dictGet t sim).getD [])).getD 0

theorem collectPairs_ok {ε : Type} [DecidableEq ε] {simD : Dict ε ℚ} :
    ∀ {realD : Dict ε ℚ}, (∀ e ∈ dictKeys realD, e ∈ dictKeys simD) →
      collectPairs simD realD =
        .ok (realD.map Prod.snd, realD.map fun p => (dictGet p.1 simD).getD 0) := by
  intro realD
  induction realD with
  | nil => intro _; rfl
  | cons p rest ih =>
    intro h
    obtain ⟨sv, hsv⟩ := dictGet_mem_keys
      (h p.1 (by exact List.mem_cons_self _ _))
    have hrest := ih fun e he => h e (List.mem_cons_of_mem _ he)
    rw [show p = (p.1, p.2) from rfl]
    simp only [collectPairs, hsv, hrest, List.map_cons, Option.getD_some]

theorem collectPairs_length {ε : Type} [DecidableEq ε] {simD : Dict ε ℚ} :
    ∀ {realD : Dict ε ℚ} {out}, collectPairs simD realD = .ok out →
      out.1.length = out.2.length := by
  intro realD
  induction realD with
  | nil =>
    intro out h
    cases h
    rfl
  | cons p rest ih =>
    intro out h
    rw [show p = (p.1, p.2) from rfl] at h
    simp only [collectPairs] at h
    cases hsv : dictGet p.1 simD with
    | none => rw [hsv] at h; cases h
    | some sv =>
      rw [hsv] at h
      cases hc : collectPairs simD rest with
      | error err => rw [hc] at h; cases h
      | ok out2 =>
        rw [hc] at h
        obtain ⟨rs, ss⟩ := out2
        cases h
        have := ih hc
        simp only [List.length_cons]
        rw [this]

theorem collectPairs_error_eq {ε : Type} [DecidableEq ε] {simD : Dict ε ℚ} :
    ∀ {realD : Dict ε ℚ} {err}, collectPairs simD realD = .error err →
      err = .keyError := by
  intro realD
  induction realD with
  | nil => intro err h; cases h
  | cons p rest ih =>
    intro err h
    rw [show p = (p.1, p.2) from rfl] at h
    simp only [collectPairs] at h
    cases hsv : dictGet p.1 simD with
    | none => rw [hsv] at h; cases h; rfl
    | some sv =>
      rw [hsv] at h
      cases hc : collectPairs simD rest with
      | error err2 => rw [hc] at h; cases h; exact ih hc
      | ok out2 => rw [hc] at h; obtain ⟨rs, ss⟩ := out2; cases h

theorem collectFlowLists_ok {τ ε : Type} [DecidableEq τ] [DecidableEq ε]
    {real sim : DoD τ ε ℚ} : ∀ {ts : List τ},
    (∀ t ∈ ts, t ∈ dictKeys real) → (∀ t ∈ ts, t ∈ dictKeys sim) →
    (∀ t ∈ ts, ∀ e ∈ dictKeys ((dictGet t real).getD []),
      e ∈ dictKeys ((dictGet t sim).getD [])) →
    collectFlowLists real sim ts =
      .ok (specRealList real ts, specSimList real sim ts) := by
  intro ts
  induction ts with
  | nil => intro _ _ _; rfl
  | cons t ts ih =>
    intro hr hs he
    obtain ⟨realD, hrealD⟩ := dictGet_mem_keys (hr t (List.mem_cons_self t ts))
    obtain ⟨simD, hsimD⟩ := dictGet_mem_keys (hs t (List.mem_cons_self t ts))
    have hpairs : collectPairs simD realD =
        .ok (realD.map Prod.snd, realD.map fun p => (dictGet p.1 simD).getD 0) := by
      apply collectPairs_ok
      intro e hemem
      have h1 : e ∈ dictKeys ((dictGet t real).getD []) := by
        rw [hrealD]
        exact hemem
      have h2 := he t (List.mem_cons_self t ts) e h1
      rw [hsimD] at h2
      exact h2
    have hrest := ih (fun x hx => hr x (List.mem_cons_of_mem _ hx))
      (fun x hx => hs x (List.mem_cons_of_mem _ hx))
      (fun x hx => he x (List.mem_cons_of_mem _ hx))
    simp only [collectFlowLists, hrealD, hsimD, hpairs, hrest]
    simp only [specRealList, specSimList, List.flatMap_cons, hrealD, hsimD,
      Option.getD_some]

theorem collectFlowLists_length {τ ε : Type} [DecidableEq τ] [DecidableEq ε]
    {real sim : DoD τ ε ℚ} : ∀ {ts : List τ} {out},
    collectFlowLists real sim ts = .ok out → out.1.length = out.2.length := by
  intro ts
  induction ts with
  | nil =>
    intro out h
    cases h
    rfl
  | cons t ts ih =>
    intro out h
    cases hreal : dictGet t real with
    | none =>
      simp only [collectFlowLists, hreal] at h
      exact Except.noConfusion h
    | some realD =>
      cases hsim : dictGet t sim with
      | none =>
        simp only [collectFlowLists, hreal, hsim] at h
        exact Except.noConfusion h
      | some simD =>
        cases hp : collectPairs simD realD with
        | error err =>
          simp only [collectFlowLists, hreal, hsim, hp] at h
          exact Except.noConfusion h
        | ok out1 =>
          obtain ⟨rs, ss⟩ := out1
          cases hc : collectFlowLists real sim ts with
          | error err =>
            simp only [collectFlowLists, hreal, hsim, hp, hc] at h
            exact Except.noConfusion h
          | ok out2 =>
            obtain ⟨rs2, ss2⟩ := out2
            simp only [collectFlowLists, hreal, hsim, hp, hc, Except.ok.injEq] at h
            subst h
            have h1 := collectPairs_length hp
            have h2 := ih hc
            simp only at h1 h2
            simp only [List.length_append]
            rw [h1, h2]

theorem collectFlowLists_error_eq {τ ε : Type} [DecidableEq τ] [DecidableEq ε]
    {real sim : DoD τ ε ℚ} : ∀ {ts : List τ} {err},
    collectFlowLists real sim ts = .error err → err = .keyError := by
  intro ts
  induction ts with
  | nil => intro err h; cases h
  | cons t ts ih =>
    intro err h
    cases hreal : dictGet t real with
    | none =>
      simp only [collectFlowLists, hreal, Except.error.injEq] at h
      exact h.symm
    | some realD =>
      cases hsim : dictGet t sim with
      | none =>
        simp only [collectFlowLists, hreal, hsim, Except.error.injEq] at h
        exact h.symm
      | some simD =>
        cases hp : collectPairs simD realD with
        | error err2 =>
          simp only [collectFlowLists, hreal, hsim, hp, Except.error.injEq] at h
          rw [← h]
          exact collectPairs_error_eq hp
        | ok out1 =>
          obtain ⟨rs, ss⟩ := out1
          cases hc : collectFlowLists real sim ts with
          | error err2 =>
            simp only [collectFlowLists, hreal, hsim, hp, hc, Except.error.injEq] at h
            rw [← h]
            exact ih hc
          | ok out2 =>
            obtain ⟨rs2, ss2⟩ := out2
            simp only [collectFlowLists, hreal, hsim, hp, hc] at h
            exact Except.noConfusion h

theorem convert_eq_collect {τ ε : Type} [DecidableEq τ] [DecidableEq ε]
    (real sim : DoD τ ε ℚ) (ts : List τ) :
    convert_flow_per_time_to_list real sim ts = collectFlowLists real sim ts := by
  cases h : collectFlowLists real sim ts with
  | error err => simp only [convert_flow_per_time_to_list, h]
  | ok out =>
    obtain ⟨rs, ss⟩ := out
    have hl := collectFlowLists_length h
    simp only at hl
    simp only [convert_flow_per_time_to_list, h]
    rw [if_pos hl]

theorem collectPairsClassified_length {ε : Type} [DecidableEq ε]
    {cls : ε → Bool} {simD : Dict ε ℚ} : ∀ {realD : Dict ε ℚ} {out},
    collectPairsClassified cls simD realD = .ok out →
      out.1.1.length = out.1.2.length ∧ out.2.1.length = out.2.2.length := by
  intro realD
  induction realD with
  | nil =>
    intro out h
    cases h
    exact ⟨rfl, rfl⟩
  | cons p rest ih =>
    intro out h
    rw [show p = (p.1, p.2) from rfl] at h
    cases hsv : dictGet p.1 simD with
    | none =>
      simp only [collectPairsClassified, hsv] at h
      exact Except.noConfusion h
    | some sv =>
      cases hc : collectPairsClassified cls simD rest with
      | error err =>
        simp only [collectPairsClassified, hsv, hc] at h
        exact Except.noConfusion h
      | ok out2 =>
        obtain ⟨⟨crs, css⟩, prs, pss⟩ := out2
        obtain ⟨ih1, ih2⟩ := ih hc
        simp only at ih1 ih2
        by_cases hcls : cls p.1
        · simp only [collectPairsClassified, hsv, hc, if_pos hcls,
            Except.ok.injEq] at h
          subst h
          exact ⟨by simp [List.length_cons, ih1], by simp [ih2]⟩
        · simp only [collectPairsClassified, hsv, hc, if_neg hcls,
            Except.ok.injEq] at h
          subst h
          exact ⟨by simp [ih1], by simp [List.length_cons, ih2]⟩

theorem collectPairsClassified_error_eq {ε : Type} [DecidableEq ε]
    {cls : ε → Bool} {simD : Dict ε ℚ} : ∀ {realD : Dict ε ℚ} {err},
    collectPairsClassified cls simD realD = .error err → err = .keyError := by
  intro realD
  induction realD with
  | nil => intro err h; cases h
  | cons p rest ih =>
    intro err h
    rw [show p = (p.1, p.2) from rfl] at h
    cases hsv : dictGet p.1 simD with
    | none =>
      simp only [collectPairsClassified, hsv, Except.error.injEq] at h
      exact h.symm
    | some sv =>
      cases hc : collectPairsClassified cls simD rest with
      | error err2 =>
        simp only [collectPairsClassified, hsv, hc, Except.error.injEq] at h
        rw [← h]
        exact ih hc
      | ok out2 =>
        obtain ⟨⟨crs, css⟩, prs, pss⟩ := out2
        by_cases hcls : cls p.1
        · simp only [collectPairsClassified, hsv, hc, if_pos hcls] at h
          exact Except.noConfusion h
        · simp only [collectPairsClassified, hsv, hc, if_neg hcls] at h
          exact Except.noConfusion h

theorem collectFlowListsClassified_length {τ ε : Type} [DecidableEq τ] [DecidableEq ε]
    {cls : ε → Bool} {real sim : DoD τ ε ℚ} : ∀ {ts : List τ} {out},
    collectFlowListsClassified cls real sim ts = .ok out →
      out.1.1.length = out.1.2.length ∧ out.2.1.length = out.2.2.length := by
  intro ts
  induction ts with
  | nil =>
    intro out h
    cases h
    exact ⟨rfl, rfl⟩
  | cons t ts ih =>
    intro out h
    cases hreal : dictGet t real with
    | none =>
      simp only [collectFlowListsClassified, hreal] at h
      exact Except.noConfusion h
    | some realD =>
      cases hsim : dictGet t sim with
      | none =>
        simp only [collectFlowListsClassified, hreal, hsim] at h
        exact Except.noConfusion h
      | some simD =>
        cases hp : collectPairsClassified cls simD realD with
        | error err =>
          simp only [collectFlowListsClassified, hreal, hsim, hp] at h
          exact Except.noConfusion h
        | ok out1 =>
          obtain ⟨⟨crs, css⟩, prs, pss⟩ := out1
          cases hc : collectFlowListsClassified cls real sim ts with
          | error err =>
            simp only [collectFlowListsClassified, hreal, hsim, hp, hc] at h
            exact Except.noConfusion h
          | ok out2 =>
            obtain ⟨⟨crs2, css2⟩, prs2, pss2⟩ := out2
            simp only [collectFlowListsClassified, hreal, hsim, hp, hc,
              Except.ok.injEq] at h
            subst h
            obtain ⟨h1, h2⟩ := collectPairsClassified_length hp
            obtain ⟨h3, h4⟩ := ih hc
            simp only at h1 h2 h3 h4
            constructor
            · simp only [List.length_append]
              rw [h1, h3]
            · simp only [List.length_append]
              rw [h2, h4]

theorem collectFlowListsClassified_error_eq {τ ε : Type} [DecidableEq τ] [DecidableEq ε]
    {cls : ε → Bool} {real sim : DoD τ ε ℚ} : ∀ {ts : List τ} {err},
    collectFlowListsClassified cls real sim ts = .error err → err = .keyError := by
  intro ts
  induction ts with
  | nil => intro err h; cases h
  | cons t ts ih =>
    intro err h
    cases hreal : dictGet t real with
    | none =>
      simp only [collectFlowListsClassified, hreal, Except.error.injEq] at h
      exact h.symm
    | some realD =>
      cases hsim : dictGet t sim with
      | none =>
        simp only [collectFlowListsClassified, hreal, hsim, Except.error.injEq] at h
        exact h.symm
      | some simD =>
        cases hp : collectPairsClassified cls simD realD with
        | error err2 =>
          simp only [collectFlowListsClassified, hreal, hsim, hp,
            Except.error.injEq] at h
          rw [← h]
          exact collectPairsClassified_error_eq hp
        | ok out1 =>
          obtain ⟨⟨crs, css⟩, prs, pss⟩ := out1
          cases hc : collectFlowListsClassified cls real sim ts with
          | error err2 =>
            simp only [collectFlowListsClassified, hreal, hsim, hp, hc,
              Except.error.injEq] at h
            rw [← h]
            exact ih hc
          | ok out2 =>
            obtain ⟨⟨crs2, css2⟩, prs2, pss2⟩ := out2
            simp only [collectFlowListsClassified, hreal, hsim, hp, hc] at h
            exact Except.noConfusion h

theorem convert_classified_eq_collect {τ ε : Type} [DecidableEq τ] [DecidableEq ε]
    (cls : ε → Bool) (real sim : DoD τ ε ℚ) (ts : List τ) :
    convert_flow_per_time_to_list_classified cls real sim ts =
      collectFlowListsClassified cls real sim ts := by
  cases h : collectFlowListsClassified cls real sim ts with
  | error err => simp only [convert_flow_per_time_to_list_classified, h]
  | ok out =>
    obtain ⟨⟨crs, css⟩, prs, pss⟩ := out
    obtain ⟨h1, h2⟩ := collectFlowListsClassified_length h
    simp only at h1 h2
    simp only [convert_flow_per_time_to_list_classified, h]
    rw [if_pos h1, if_pos h2]

/-- C2: without a classifier, when every listed time is present in both
tables and every entity of `real_table[time]` is present in
`simulated_table[time]`, `convert_flow_per_time_to_list` returns exactly
the time-major, entity-major paired sequences described by `specRealList`
and `specSimList`. -/
theorem convert_flow_order {τ ε : Type} [DecidableEq τ] [DecidableEq ε]
    (real sim : DoD τ ε ℚ) (ts : List τ)
    (hr : ∀ t ∈ ts, t ∈ dictKeys real) (hs : ∀ t ∈ ts, t ∈ dictKeys sim)
    (he : ∀ t ∈ ts, ∀ e ∈ dictKeys ((dictGet t real).getD []),
      e ∈ dictKeys ((dictGet t sim).getD [])) :
    convert_flow_per_time_to_list real sim ts =
      .ok (specRealList real ts, specSimList real sim ts) := by
  rw [convert_eq_collect]
  exact collectFlowLists_ok hr hs he

/-- C2 (witness): the claim's example — real `{09:00: {d1: 10}}`,
simulated `{09:00: {d1: 8}}`, `time_list = [09:00]` yields
`([10], [8])` (09:00 is minute 540). -/
theorem convert_flow_order_witness :
    (∀ t ∈ [(540 : ℕ)], t ∈ dictKeys [((540 : ℕ), [("d1", (10 : ℚ))])]) ∧
    (∀ t ∈ [(540 : ℕ)], t ∈ dictKeys [((540 : ℕ), [("d1", (8 : ℚ))])]) ∧
    (∀ t ∈ [(540 : ℕ)],
      ∀ e ∈ dictKeys ((dictGet t [((540 : ℕ), [("d1", (10 : ℚ))])]).getD []),
        e ∈ dictKeys ((dictGet t [((540 : ℕ), [("d1", (8 : ℚ))])]).getD [])) ∧
    convert_flow_per_time_to_list
        [((540 : ℕ), [("d1", (10 : ℚ))])] [((540 : ℕ), [("d1", (8 : ℚ))])] [540] =
      .ok (specRealList [((540 : ℕ), [("d1", (10 : ℚ))])] [540],
           specSimList [((540 : ℕ), [("d1", (10 : ℚ))])]
             [((540 : ℕ), [("d1", (8 : ℚ))])] [540]) ∧
    specRealList [((540 : ℕ), [("d1", (10 : ℚ))])] [540] = [10] ∧
    specSimList [((540 : ℕ), [("d1", (10 : ℚ))])]
      [((540 : ℕ), [("d1", (8 : ℚ))])] [540] = [8] :=
  ⟨by decide, by decide, by decide,
    convert_flow_order _ _ _ (by decide) (by decide) (by decide), rfl, rfl⟩

/-- C3: whenever the accumulation loops of `convert_flow_per_time_to_list`
complete (with or without a classifier), the paired sequences have equal
lengths — per partition in the classified case — so the defensive
`assert len(..) == len(..)` checks never fail: the function never returns
`AssertionError`, and every successful result is length-balanced. -/
theorem convert_flow_assert_never_fails :
    (∀ (τ ε : Type) [DecidableEq τ] [DecidableEq ε]
        (real sim : DoD τ ε ℚ) (ts : List τ),
      convert_flow_per_time_to_list real sim ts ≠ .error .assertionError ∧
      ∀ out, convert_flow_per_time_to_list real sim ts = .ok out →
        out.1.length = out.2.length) ∧
    (∀ (τ ε : Type) [DecidableEq τ] [DecidableEq ε]
        (cls : ε → Bool) (real sim : DoD τ ε ℚ) (ts : List τ),
      convert_flow_per_time_to_list_classified cls real sim ts ≠
        .error .assertionError ∧
      ∀ out, convert_flow_per_time_to_list_classified cls real sim ts = .ok out →
        out.1.1.length = out.1.2.length ∧ out.2.1.length = out.2.2.length) := by
  constructor
  · intro τ ε i1 i2 real sim ts
    rw [convert_eq_collect]
    constructor
    · intro h
      exact PyError.noConfusion (collectFlowLists_error_eq h)
    · intro out h
      exact collectFlowLists_length h
  · intro τ ε i1 i2 cls real sim ts
    rw [convert_classified_eq_collect]
    constructor
    · intro h
      exact PyError.noConfusion (collectFlowListsClassified_error_eq h)
    · intro out h
      exact collectFlowListsClassified_length h

/-- C3 (witness): a concrete balanced run of both branches — two times,
two detectors ("c1" is classified as a city detector, "p1" is not). -/
theorem convert_flow_assert_never_fails_witness :
    convert_flow_per_time_to_list
        [((540 : ℕ), [("c1", (10 : ℚ)), ("p1", 20)])]
        [((540 : ℕ), [("c1", (8 : ℚ)), ("p1", 21)])] [540] ≠
      .error .assertionError ∧
    convert_flow_per_time_to_list_classified (fun e => e = "c1")
        [((540 : ℕ), [("c1", (10 : ℚ)), ("p1", 20)])]
        [((540 : ℕ), [("c1", (8 : ℚ)), ("p1", 21)])] [540] ≠
      .error .assertionError :=
  ⟨(convert_flow_assert_never_fails.1 ℕ String _ _ _).1,
   (convert_flow_assert_never_fails.2 ℕ String _ _ _ _).1⟩

/-! ## `get_linear_regression` -/

/-- `np.array(..).max()` — the guard of `get_linear_regression` means it is
only reached on non-empty data. -/
def listMax : List ℚ → ℚ
  | [] => 0
  | x :: xs => xs.foldl max x

/-- Arithmetic mean (0 on the empty list, with `ℚ`'s total division). -/
def mean (l : List ℚ) : ℚ := l.sum / l.length

/-- Dot product of two equal-length sequences. -/
def dotList (xs ys : List ℚ) : ℚ := (List.zipWith (· * ·) xs ys).sum

/-- The failures of `get_linear_regression`: `valueError` is the input
validation of the underlying library call (`fit` rejects zero samples and
mismatched lengths); `insufficientData` is the spec's
`InsufficientDataError`, present in the type solely so the spec's claim
can be stated — the source contains no minimum-size check and never
raises it. -/
inductive RegressionError where
  | valueError
  | insufficientData
  deriving DecidableEq, Repr

/-- The slope `lin_reg_object.coef_` of the library's ordinary
least-squares fit (closed form over exact rationals): through the origin
when `fit_intercept=False`, else on centred data. -/
def olsSlope (xs ys : List ℚ) (enforce_intercept : Bool) : ℚ :=
  if enforce_intercept then dotList xs ys / dotList xs xs
  else
    dotList (xs.map (· - mean xs)) (ys.map (· - mean ys)) /
      dotList (xs.map (· - mean xs)) (xs.map (· - mean xs))

/-- The signed intercept `lin_reg_object.intercept_` of the fit: exactly
`0.0` when `fit_intercept=False`, else `ȳ - slope·x̄`. -/
def olsIntercept (xs ys : List ℚ) (enforce_intercept : Bool) : ℚ :=
  if enforce_intercept then 0
  else mean ys - olsSlope xs ys enforce_intercept * mean xs

/-- The residual sum of squares `SS_res` of the fitted
(signed-intercept) predictions. -/
def ssRes (xs ys : List ℚ) (enforce_intercept : Bool) : ℚ :=
  (List.zipWith
    (fun y x => (y - (olsSlope xs ys enforce_intercept * x +
      olsIntercept xs ys enforce_intercept)) ^ 2) ys xs).sum

/-- The total sum of squares `SS_tot` about the mean of `y`. -/
def ssTot (ys : List ℚ) : ℚ := (ys.map fun y => (y - mean ys) ^ 2).sum

/-- `lin_reg_object.score(..)`, which the library computes as `r2_score`,
degenerate branches included: with fewer than two samples it warns
(`UndefinedMetricWarning`) and returns NaN — embedded as `none`; with
`SS_tot = 0` it returns 1.0 when `SS_res = 0` and 0.0 otherwise;
else `1 - SS_res/SS_tot`. -/
def olsScore (xs ys : List ℚ) (enforce_intercept : Bool) : Option ℚ :=
  if ys.length < 2 then none
  else if ssTot ys = 0 then
    (if ssRes xs ys enforce_intercept = 0 then some 1 else some 0)
  else some (1 - ssRes xs ys enforce_intercept / ssTot ys)

/-- `get_linear_regression(real_data_list, simulated_data_list,
enforce_intercept)` of `src/calibration/postprocessing_plot_util.py`:
fit, then `intercept = abs(lin_reg_object.intercept_)`, the score (an
`Option ℚ`: `none` is the NaN that `r2_score` yields on fewer than two
samples), the maximum x value, and
`yhat = np.dot(real_data_list, slope) + intercept`
(note: `yhat` uses the absolute intercept, the score the signed one).
The source performs no minimum-size check; the only failure is the
library's input validation. -/
def get_linear_regression (xs ys : List ℚ) (enforce_intercept : Bool) :
    Except RegressionError (ℚ × ℚ × Option ℚ × ℚ × List ℚ) :=
  if xs.length = 0 ∨ ys.length ≠ xs.length then .error .valueError
  else
    .ok (olsSlope xs ys enforce_intercept,
         |olsIntercept xs ys enforce_intercept|,
         olsScore xs ys enforce_intercept,
         listMax xs,
         xs.map fun x => olsSlope xs ys enforce_intercept * x +
           |olsIntercept xs ys enforce_intercept|)

/-- C5: every successful `get_linear_regression` result reports a
non-negative intercept (the source takes `abs`), and with
`enforce_intercept=True` the intercept is exactly 0. -/
theorem get_linear_regression_intercept_abs (xs ys : List ℚ) (b : Bool)
    (out : ℚ × ℚ × Option ℚ × ℚ × List ℚ)
    (h : get_linear_regression xs ys b = .ok out) :
    0 ≤ out.2.1 ∧ (b = true → out.2.1 = 0) := by
  unfold get_linear_regression at h
  by_cases hg : xs.length = 0 ∨ ys.length ≠ xs.length
  · rw [if_pos hg] at h
    exact Except.noConfusion h
  · rw [if_neg hg, Except.ok.injEq] at h
    subst h
    refine ⟨abs_nonneg _, ?_⟩
    intro hb
    subst hb
    show |olsIntercept xs ys true| = 0
    simp [olsIntercept]

/-- C5 (witness): the spec's own example
`fit_linear_relationship([1,2,3],[2,4,6], force_zero_intercept=True)`
gives slope 2, intercept 0, R² 1, max 3, `ŷ = [2,4,6]`. -/
theorem get_linear_regression_intercept_abs_witness :
    get_linear_regression [1, 2, 3] [2, 4, 6] true =
      .ok (2, 0, some 1, 3, [2, 4, 6]) ∧
    (0 ≤ ((2 : ℚ), (0 : ℚ), (some 1 : Option ℚ), (3 : ℚ),
        ([2, 4, 6] : List ℚ)).2.1 ∧
      (true = true →
        ((2 : ℚ), (0 : ℚ), (some 1 : Option ℚ), (3 : ℚ),
          ([2, 4, 6] : List ℚ)).2.1 = 0)) :=
  have h : get_linear_regression [1, 2, 3] [2, 4, 6] true =
      .ok (2, 0, some 1, 3, [2, 4, 6]) := by
    unfold get_linear_regression
    rw [if_neg (by norm_num)]
    norm_num [olsSlope, olsIntercept, olsScore, ssRes, ssTot, dotList, mean,
      listMax, List.zipWith, List.foldl, max_def]
  ⟨h, get_linear_regression_intercept_abs _ _ _ _ h⟩

/-- C6 (amended): `get_linear_regression` performs no minimum-data check.
Any non-empty pair of equal-length sequences — a single paired point
included — yields a successful (possibly degenerate) fit, and the
function never fails with the spec's `InsufficientDataError`; its only
failure is the library's input validation on empty or length-mismatched
input. -/
theorem get_linear_regression_no_min_check :
    (∀ (xs ys : List ℚ) (b : Bool), xs ≠ [] → xs.length = ys.length →
      ∃ out, get_linear_regression xs ys b = .ok out) ∧
    (∀ (xs ys : List ℚ) (b : Bool),
      get_linear_regression xs ys b ≠ .error .insufficientData) := by
  constructor
  · intro xs ys b hne hlen
    have hguard : ¬(xs.length = 0 ∨ ys.length ≠ xs.length) := by
      push_neg
      exact ⟨fun hl => hne (List.length_eq_zero.mp hl), hlen.symm⟩
    refine ⟨(olsSlope xs ys b, |olsIntercept xs ys b|, olsScore xs ys b,
      listMax xs, xs.map fun x => olsSlope xs ys b * x + |olsIntercept xs ys b|), ?_⟩
    unfold get_linear_regression
    rw [if_neg hguard]
  · intro xs ys b h
    unfold get_linear_regression at h
    by_cases hg : xs.length = 0 ∨ ys.length ≠ xs.length
    · rw [if_pos hg, Except.error.injEq] at h
      exact RegressionError.noConfusion h
    · rw [if_neg hg] at h
      exact Except.noConfusion h

/-- C6 (witness): a single paired point is accepted. -/
theorem get_linear_regression_no_min_check_witness :
    ∃ out, get_linear_regression [1] [5] false = .ok out :=
  get_linear_regression_no_min_check.1 [1] [5] false (by decide) (by decide)

/-- C6 (counterexample to the claim as stated): on the single paired
point (1, 5) — fewer than 2 points — the function does not fail; it
returns the degenerate fit slope 0, intercept 5, R² NaN (`r2_score`
warns and returns NaN below two samples; `none` here), max 1, `ŷ = [5]`
(the library's least-squares solution on one centred sample is the
zero slope). -/
theorem get_linear_regression_single_point_cex :
    get_linear_regression [1] [5] false = .ok (0, 5, none, 1, [5]) := by
  unfold get_linear_regression
  rw [if_neg (by norm_num)]
  norm_num [olsSlope, olsIntercept, olsScore, dotList, mean, listMax,
    List.zipWith, List.foldl]

/-! ## `ExternalDemandProfile` (calibration_util.py) -/

/-- The record class `ExternalDemandData` of
`src/calibration/calibration_util.py` (identifiers as strings, flows as
`ℚ`, per-timestep dictionaries keyed by minutes after midnight; the
fields `__init__` sets to `None` are `Option`s). -/
structure ExternalDemandData where
  origin_centroid_id : String
  origin_detector_id : Option String
  destination_centroid_id : String
  destination_detector_id : Option String
  streetlight_afternoon_flow : ℚ
  streetlight_demand_per_timestep : Dict ℕ ℚ
  from_detector_afternoon_flow : Option ℚ
  to_detector_afternoon_flow : Option ℚ
  from_demand_per_timestep : Dict ℕ ℚ
  to_demand_per_timestep : Dict ℕ ℚ
  deriving DecidableEq, Repr

/-- The one failure `export_to_file` raises: the bare
`Exception('ExternalDemandProfile has no data. Export aborted.')` — the
spec's `EmptyCollectionError`. -/
inductive ExportError where
  | emptyCollection
  deriving DecidableEq, Repr

/-- What one call of `export_to_file` does to the world: the outcome, the
file at `filepath` afterwards (the pickled list, `none` when no file
exists), and whether `warnings.warn` fired. -/
structure ExportOutcome where
  result : Except ExportError Unit
  fileAfter : Option (List ExternalDemandData)
  warned : Bool
  deriving DecidableEq, Repr

/-- `ExternalDemandProfile.export_to_file(self, filepath)`:
raise when `len(self.ext_demand_matrix) == 0` (before touching the file),
warn when `path.exists(filepath)`, then pickle `ext_demand_matrix` over
whatever was at `filepath`. -/
def export_to_file (ext_demand_matrix : List ExternalDemandData)
    (fileBefore : Option (List ExternalDemandData)) : ExportOutcome :=
  if ext_demand_matrix.length = 0 then
    ⟨.error .emptyCollection, fileBefore, false⟩
  else
    ⟨.ok (), some ext_demand_matrix, fileBefore.isSome⟩

/-- C8: exporting an empty collection fails with the empty-collection
error and leaves the file untouched; exporting a non-empty collection to
a path that already holds a file succeeds, warns, and overwrites the file
with the new collection. -/
theorem export_to_file_empty_and_overwrite :
    (∀ fileBefore, export_to_file [] fileBefore =
      ⟨.error .emptyCollection, fileBefore, false⟩) ∧
    (∀ (m : List ExternalDemandData) (prev : List ExternalDemandData), m ≠ [] →
      export_to_file m (some prev) = ⟨.ok (), some m, true⟩) := by
  constructor
  · intro fileBefore
    rfl
  · intro m prev hne
    unfold export_to_file
    rw [if_neg fun hl => hne (List.length_eq_zero.mp hl)]
    rfl

/-- C8 (witness): the empty export against an existing file, and a
one-record collection exported over an existing file. -/
theorem export_to_file_empty_and_overwrite_witness :
    export_to_file [] (some []) =
      ⟨.error .emptyCollection, some [], false⟩ ∧
    export_to_file
        [⟨"ext_1", some "100001", "ext_2", some "100002", 7, [], none, none, [], []⟩]
        (some []) =
      ⟨.ok (),
        some [⟨"ext_1", some "100001", "ext_2", some "100002", 7, [], none, none, [], []⟩],
        true⟩ :=
  ⟨export_to_file_empty_and_overwrite.1 (some []),
   export_to_file_empty_and_overwrite.2 _ [] (by simp)⟩

/-- What `pickle.load` can hand back, as far as the type check of
`__import_from_file` can tell: a Python list of elements each either an
`ExternalDemandData` or something else, or a non-list value. -/
inductive PickleItem where
  | demandData (d : ExternalDemandData)
  | otherValue
  deriving DecidableEq, Repr

/-- A deserialized pickle payload. -/
inductive PickleValue where
  | pyList (items : List PickleItem)
  | nonListValue
  deriving DecidableEq, Repr

/-- The failures of `__import_from_file`: the bare
`Exception("File has incorrect data type. Import aborted.")` — the spec's
`TypeMismatchError` — and the `IndexError` that `imported_data[0]` raises
on an empty list. -/
inductive ProfileImportError where
  | typeMismatch
  | indexError
  deriving DecidableEq, Repr

/-- `ExternalDemandProfile.__import_from_file(self, filepath)` after
`pickle.load`:

    if (isinstance(imported_data, list)
            and isinstance(imported_data[0], ExternalDemandData)):
        self.ext_demand_matrix = imported_data
    else:
        raise Exception("File has incorrect data type. Import aborted.")

`and` short-circuits, so a non-list never reaches `imported_data[0]`; an
empty list does and raises `IndexError`; otherwise only the first element
is inspected, and on success `ext_demand_matrix` becomes the whole list. -/
def import_from_file (imported_data : PickleValue) :
    Except ProfileImportError (List PickleItem) :=
  match imported_data with
  | .nonListValue => .error .typeMismatch
  | .pyList [] => .error .indexError
  | .pyList (x :: xs) =>
    match x with
    | .demandData _ => .ok (x :: xs)
    | .otherValue => .error .typeMismatch

/-- The shallow shape check the claim describes: it looks only at whether
the payload is a list and, for a non-empty list, at the type of its first
element — never at the rest of the sequence. -/
def shallowShapeMismatch : PickleValue → Bool
  | .nonListValue => true
  | .pyList [] => false
  | .pyList (.demandData _ :: _) => false
  | .pyList (.otherValue :: _) => true

/-- C9: `__import_from_file` raises the type-mismatch error exactly when
the shallow shape check (sequence type and first element only) rejects
the payload, and on a list whose first element is a record it succeeds
with the whole deserialized sequence, whatever the rest contains. -/
theorem import_from_file_type_check :
    (∀ payload, import_from_file payload = .error .typeMismatch ↔
      shallowShapeMismatch payload = true) ∧
    (∀ (d : ExternalDemandData) (xs : List PickleItem),
      import_from_file (.pyList (.demandData d :: xs)) =
        .ok (.demandData d :: xs)) := by
  constructor
  · intro payload
    match payload with
    | .nonListValue => simp [import_from_file, shallowShapeMismatch]
    | .pyList [] => simp [import_from_file, shallowShapeMismatch]
    | .pyList (.demandData d :: xs) => simp [import_from_file, shallowShapeMismatch]
    | .pyList (.otherValue :: xs) => simp [import_from_file, shallowShapeMismatch]
  · intro d xs
    rfl

/-- C10: on an empty deserialized list the unguarded `imported_data[0]`
raises `IndexError` — a failure outside the declared error taxonomy, not
the type-mismatch error. -/
theorem import_from_file_empty_payload :
    import_from_file (.pyList []) = .error .indexError ∧
    (Except.error .indexError : Except ProfileImportError (List PickleItem)) ≠
      .error .typeMismatch :=
  ⟨rfl, by simp⟩
